import Mathlib

/-!
# FSH ("Folder Shell") — verification of the server-side sandbox core

Shallow embedding of the FSH repository's data model and operations, and
proofs settling the frozen claims about it.

The embedding follows the Rust source:

* `src/sandbox/validator.rs` — `PathValidator` (path confinement);
* `src/sandbox/shell.rs`     — `SandboxedShell` (the `cd` builtin, the
  subprocess environment assembly, `current_process` / `kill_current_process`);
* `src/config/folder.rs`     — `FolderConfig::is_command_allowed`;
* `src/protocol/codec.rs`    — `FshCodec::encode` / `decode` /
  `read_message`, and the streaming `MessageBuffer::try_parse_messages`;
* `src/server/session.rs`    — `Session::handle_command` output/completion
  interleaving.

Filesystem effects (`canonicalize`, `is_dir`) are modelled as explicit
oracles passed to the functions that perform them; the `bincode`
serialization of messages is modelled as a pair of functions `ser`/`deser`
passed in, with its documented round-trip contract taken as a hypothesis
where a claim needs it.  Machine integers are `Nat` with explicit
`% 2 ^ 32` where the source casts (`data.len() as u32`).
-/

namespace FSH

/-! ## Paths

Rust `Path`/`PathBuf` modelled by an absolute flag and a component list.
`join`, `starts_with`, `parent`, `is_absolute` follow `std::path` semantics
on component lists (`join` with an absolute argument replaces the base;
`starts_with` is component-wise prefix; `parent` drops the last component
and is `none` for the filesystem root `/`). -/

structure FsPath where
  absolute : Bool
  components : List String
deriving DecidableEq, Repr

namespace FsPath

/-- `Path::join`: an absolute right operand replaces the base. -/
def join (a b : FsPath) : FsPath :=
  if b.absolute then b else ⟨a.absolute, a.components ++ b.components⟩

/-- `Path::starts_with`: component-wise prefix (absolute flags must agree). -/
def startsWith (p base : FsPath) : Bool :=
  (p.absolute == base.absolute) && base.components.isPrefixOf p.components

/-- `Path::parent`: drop the last component; `none` at the filesystem root. -/
def parent (p : FsPath) : Option FsPath :=
  match p.components with
  | [] => none
  | _ :: _ => some ⟨p.absolute, p.components.dropLast⟩

end FsPath

/-! ## Errors (`src/protocol/mod.rs`, `enum FshError`) -/

inductive FshError where
  | ProtocolError (msg : String)
  | AuthenticationFailed
  | FolderNotFound (msg : String)
  | PermissionDenied (msg : String)
  | SessionNotFound (msg : String)
  | InvalidPath (msg : String)
  | ShellError (msg : String)
  | NetworkError (msg : String)
  | ConfigError (msg : String)
deriving DecidableEq, Repr

/-! ## Path validator (`src/sandbox/validator.rs`)

`PathValidator` holds the canonicalized root.  `canonicalize` performs
filesystem I/O, so it is an oracle `canon : FsPath → Option FsPath`
(`none` models the `Err` of `std::fs::canonicalize`, e.g. a non-existent
file).  The error strings in the source interpolate the offending path and
OS error; the model keeps the fixed leading text. -/

/-- `PathValidator::validate_path` (validator.rs:19-41): join a relative
input to the root, canonicalize, and require the canonical result to have
the root as a prefix. -/
def validate_path (canon : FsPath → Option FsPath) (root : FsPath)
    (p : FsPath) : Except FshError FsPath :=
  let absolutePath := if p.absolute then p else root.join p
  match canon absolutePath with
  | none => .error (.InvalidPath "Cannot resolve path")
  | some canonicalPath =>
    if canonicalPath.startsWith root then
      .ok canonicalPath
    else
      .error (.PermissionDenied "Path is outside the allowed directory")

/-! ## Command policy (`src/config/folder.rs`)

Command strings are `List Char`; `hasSubstr big sub` is Rust
`str::contains` (true for the empty needle), `List.isPrefixOf` is
`str::starts_with`. -/

abbrev Str := List Char

/-- Rust `str::contains`: `sub` occurs contiguously in `big`. -/
def hasSubstr (big sub : Str) : Bool :=
  if sub.isPrefixOf big then true
  else
    match big with
    | [] => false
    | _ :: t => hasSubstr t sub

/-- The fields of `FolderConfig` that `is_command_allowed` and
`is_system_aware_command` consult (folder.rs:7-18). -/
structure FolderConfig where
  allowed_commands : List Str
  blocked_commands : List Str
  system_aware_commands : Option (List Str)
deriving DecidableEq, Repr

/-- `FolderConfig::is_command_allowed` (folder.rs:95-124), clause for
clause: blocked-substring denial, system-aware-substring allowance,
the `"*"` wildcard, the empty-list default, then the prefix /
`"/A"` / `"\A"` membership test. -/
def is_command_allowed (f : FolderConfig) (command : Str) : Bool :=
  if f.blocked_commands.any (fun blocked => hasSubstr command blocked) then
    false
  else if (match f.system_aware_commands with
           | some systemCmds => systemCmds.any (fun sysCmd => hasSubstr command sysCmd)
           | none => false) then
    true
  else if f.allowed_commands.contains ['*'] then
    true
  else if f.allowed_commands.isEmpty then
    true
  else
    f.allowed_commands.any (fun allowed =>
      allowed.isPrefixOf command
        || hasSubstr command ('/' :: allowed)
        || hasSubstr command ('\\' :: allowed))

/-- The decision procedure exactly as the specification words it
(spec §4.4 steps 1-4), to be compared with `is_command_allowed`. -/
def command_policy_spec (f : FolderConfig) (command : Str) : Bool :=
  if f.blocked_commands.any (fun blocked => hasSubstr command blocked) then
    false
  else if (f.system_aware_commands.getD []).any (fun sysCmd => hasSubstr command sysCmd) then
    true
  else if f.allowed_commands.contains ['*'] || f.allowed_commands.isEmpty then
    true
  else
    f.allowed_commands.any (fun allowed =>
      allowed.isPrefixOf command
        || hasSubstr command ('/' :: allowed)
        || hasSubstr command ('\\' :: allowed))

/-! ## Sandboxed shell — the `cd` builtin (`src/sandbox/shell.rs:116-189`)

`handle_builtin_command` for `"cd"`.  The shell carries two roots: the raw
configured `config.root_path` (used by the `cd ..` guard and as the no-arg
target) and the validator's canonicalized root (used by `validate_path`);
the model keeps them as separate parameters `root` and `croot`.

A command argument is a Rust `String`; the source both compares it to
`".."` as a string and converts it to a `PathBuf`, so the model carries an
argument as the pair of its raw string and its parsed path.  `is_dir`
performs filesystem I/O and is an oracle.  `execution_time_ms` is
wall-clock time and is not modelled. -/

structure CmdArg where
  raw : String
  parsed : FsPath
deriving DecidableEq, Repr

/-- `CommandResult` (shell.rs:20-26) without the wall-clock field. -/
structure CommandResult where
  exit_code : Int
  stdout : String
  stderr : String
deriving DecidableEq, Repr

/-- Mutable state of `SandboxedShell` relevant to the builtins:
`working_directory` (starts at the configured root, shell.rs:47). -/
structure ShellSt where
  working_directory : FsPath
deriving DecidableEq, Repr

/-- Shared tail of the `cd` builtin (shell.rs:158-173): require the chosen
target to be a directory, then update `working_directory` and succeed, or
report `Directory not found: {args[0]}` without changing state.  With no
argument and a non-directory root the source indexes `args[0]` out of
bounds; the model returns the panic as a `ShellError`. -/
def cdFinish (isDir : FsPath → Bool) (s : ShellSt) (args : List CmdArg)
    (target : FsPath) : Except FshError (ShellSt × CommandResult) :=
  if isDir target then
    .ok (⟨target⟩, ⟨0, "", ""⟩)
  else
    match args with
    | [] => .error (.ShellError "panic: index out of bounds")
    | a :: _ => .ok (s, ⟨1, "", "Directory not found: " ++ a.raw⟩)

/-- `handle_builtin_command` for `"cd"` (shell.rs:124-174).  `root` is
`config.root_path`, `croot` the validator's canonical root.  Validation
failures propagate as errors exactly as the Rust `?` does. -/
def cd_builtin (canon : FsPath → Option FsPath) (isDir : FsPath → Bool)
    (root croot : FsPath) (s : ShellSt) (args : List CmdArg) :
    Except FshError (ShellSt × CommandResult) :=
  match args with
  | [] => cdFinish isDir s [] root
  | a :: _ =>
    if a.raw = ".." then
      match s.working_directory.parent with
      | some par =>
        if par.startsWith root then
          cdFinish isDir s args par
        else
          .ok (s, ⟨1, "", "Access denied: Cannot navigate above project folder"⟩)
      | none => cdFinish isDir s args root
    else
      match (if a.parsed.absolute then validate_path canon croot a.parsed
             else .ok (s.working_directory.join a.parsed)) with
      | .error e => .error e
      | .ok absolutePath =>
        match validate_path canon croot absolutePath with
        | .error e => .error e
        | .ok target => cdFinish isDir s args target

/-- One shell operation as seen by the `working_directory` state: a
successful `cd` transition, or any of the operations that do not touch
`working_directory` (`pwd`, external commands, `list_files`,
`kill_current_process`). -/
inductive ShellStep (canon : FsPath → Option FsPath) (isDir : FsPath → Bool)
    (root croot : FsPath) : ShellSt → ShellSt → Prop where
  | cd (s s₂ : ShellSt) (args : List CmdArg) (res : CommandResult)
      (h : cd_builtin canon isDir root croot s args = .ok (s₂, res)) :
      ShellStep canon isDir root croot s s₂
  | untouched (s : ShellSt) : ShellStep canon isDir root croot s s

/-- The states reachable from the initial shell state
(`working_directory = config.root_path`, shell.rs:47) by any sequence of
shell operations. -/
def ShellReachable (canon : FsPath → Option FsPath) (isDir : FsPath → Bool)
    (root croot : FsPath) (s : ShellSt) : Prop :=
  Relation.ReflTransGen (ShellStep canon isDir root croot) ⟨root⟩ s

/-! ## Subprocess environment assembly (`src/sandbox/shell.rs:212-233`)

An environment is an association list of variables; `envInsert` is
`Command::env` / map update (replace any existing binding).  A
`tokio::process::Command` inherits the parent process environment unless
`env_clear` is called: the model makes that inheritance explicit by
starting the non-cleared child environment from `serverEnv`. -/

abbrev Env := List (String × String)

/-- `Command::env(key, value)`: bind `key`, replacing any prior binding. -/
def envInsert (e : Env) (key value : String) : Env :=
  (key, value) :: e.filter (fun kv => kv.1 ≠ key)

/-- Apply a list of bindings in order via `envInsert`. -/
def envApply (e : Env) (vars : Env) : Env :=
  vars.foldl (fun acc kv => envInsert acc kv.1 kv.2) e

/-- Look a variable up. -/
def envLookup (e : Env) (key : String) : Option String :=
  (e.find? (fun kv => kv.1 = key)).map (fun kv => kv.2)

/-- `SandboxConfig::new` seeds `environment_vars` with `FSH_ROOT` and
`FSH_MODE=restricted` (sandbox/mod.rs:22-24); the session then folds the
folder's configured variables on top (session.rs:43-46). -/
def sandboxEnvVars (rootStr : String) (folderVars : Env) : Env :=
  envApply [("FSH_ROOT", rootStr), ("FSH_MODE", "restricted")] folderVars

/-- Environment of the spawned child (shell.rs:212-233).  System-aware:
`env_clear`, re-insert every server variable, overlay the configured
variables, then prepend the working directory to `PATH`.  Otherwise: no
`env_clear`, so the child inherits `serverEnv` and only overlays the
configured variables. -/
def buildChildEnv (serverEnv : Env) (configVars : Env) (wdStr : String)
    (isSystemAware : Bool) : Env :=
  if isSystemAware then
    let e := envApply [] serverEnv
    let e := envApply e configVars
    match envLookup serverEnv "PATH" with
    | some path => envInsert e "PATH" (wdStr ++ ";" ++ path)
    | none => e
  else
    envApply serverEnv configVars

/-! ## `current_process` and `kill_current_process` (`src/sandbox/shell.rs`)

`SandboxedShell.current_process : Option Child` is set to `None` at
construction (shell.rs:50) and nowhere else assigned: `execute_command`
moves the spawned child into the wait task (shell.rs:278-295) without
storing it.  `kill_current_process` (shell.rs:336-342) takes the option;
killing a child is modelled by an oracle that may fail. -/

abbrev Child := Nat

/-- The full shell state tracked for the process-lifecycle claims. -/
structure ShellProc where
  working_directory : FsPath
  current_process : Option Child
deriving DecidableEq, Repr

/-- The operations of `SandboxedShell` as they act on `ShellProc`.
`execute` covers `execute_command` spawning a child `c`: the child is
moved into the wait task, `current_process` is untouched, and builtins may
move `working_directory`.  `listFiles` and `prompt` are read-only.
`killCurrent` is `kill_current_process`. -/
inductive ShellOp where
  | execute (wd₂ : FsPath) (spawned : Option Child)
  | listFiles
  | prompt
  | killCurrent
deriving DecidableEq, Repr

/-- `kill_current_process` (shell.rs:336-342): take `current_process`;
kill it when present. -/
def kill_current_process (killChild : Child → Except FshError Unit)
    (s : ShellProc) : Except FshError Unit × ShellProc :=
  match s.current_process with
  | none => (.ok (), s)
  | some c => (killChild c, { s with current_process := none })

/-- Effect of one shell operation on `ShellProc`. -/
def applyShellOp (killChild : Child → Except FshError Unit)
    (s : ShellProc) (op : ShellOp) : ShellProc :=
  match op with
  | .execute wd₂ _ => { s with working_directory := wd₂ }
  | .listFiles => s
  | .prompt => s
  | .killCurrent => (kill_current_process killChild s).2

/-- `SandboxedShell::new` (shell.rs:45-51): `current_process = None`. -/
def initShellProc (root : FsPath) : ShellProc :=
  ⟨root, none⟩

/-! ## Protocol messages (`src/protocol/message.rs`, `src/protocol/mod.rs`)

The tagged union `FshMessage` with its payload structs.  Rust `u32`/`u64`
fields are `Nat`, `i32` is `Int`, `Vec<u8>` is `List Nat`,
`HashMap<String, String>` is an association list, and the `chrono` UTC
timestamp is a `Nat` of milliseconds. -/

inductive ShellType where
  | Cmd
  | PowerShell
  | Bash
  | GitBash
deriving DecidableEq, Repr

inductive Permission where
  | Read
  | Write
  | Execute
deriving DecidableEq, Repr

structure ClientInfo where
  platform : String
  app_version : String
  app_name : String
deriving DecidableEq, Repr

structure FolderInfo where
  name : String
  path : String
  permissions : List Permission
  shell_type : ShellType
  current_dir : String
  description : Option String
deriving DecidableEq, Repr

inductive MsgOutputType where
  | Stdout
  | Stderr
deriving DecidableEq, Repr

structure FileEntry where
  name : String
  path : String
  is_directory : Bool
  size : Nat
  modified : Nat
  permissions : Option String
deriving DecidableEq, Repr

inductive FshMessage where
  | Connect (version : String) (client_info : ClientInfo)
      (supported_features : List String)
  | ConnectResponse (success : Bool) (server_version : String)
      (supported_features : List String) (available_folders : List String)
      (message : Option String)
  | Authenticate (auth_type : String) (credentials : List (String × String))
  | AuthResponse (success : Bool) (message : Option String)
  | FolderBind (target_folder : String) (preferred_shell : Option ShellType)
  | FolderBound (success : Bool) (folder_info : Option FolderInfo)
      (error_message : Option String)
  | SessionStart (session_id : String)
      (environment_vars : List (String × String))
  | SessionReady (session_id : String) (shell_prompt : String)
      (working_directory : String)
  | Command (session_id : String) (command : String) (args : List String)
      (environment : Option (List (String × String)))
  | CommandOutput (session_id : String) (output_type : MsgOutputType)
      (data : List Nat)
  | CommandComplete (session_id : String) (exit_code : Int)
      (execution_time_ms : Nat)
  | FileList (session_id : String) (path : String) (show_hidden : Bool)
  | FileListResponse (success : Bool) (files : List FileEntry)
      (error_message : Option String)
  | FileRead (session_id : String) (file_path : String)
      (offset : Option Nat) (length : Option Nat)
  | FileReadResponse (success : Bool) (data : List Nat) (total_size : Nat)
      (error_message : Option String)
  | FileWrite (session_id : String) (file_path : String) (data : List Nat)
      (append : Bool)
  | FileWriteResponse (success : Bool) (bytes_written : Nat)
      (error_message : Option String)
  | Ping
  | Pong
  | Disconnect (reason : String)
  | Error (error_type : String) (message : String)
      (details : Option (List (String × String)))
deriving DecidableEq, Repr

/-! ## Frame codec (`src/protocol/codec.rs`)

A frame is `MAGIC || LEN (u32 big-endian) || PAYLOAD`.  Bytes are `Nat`.
`bincode` serialization is a parameter `ser : FshMessage → List Nat` with
inverse `deser : List Nat → Option FshMessage`; its round-trip contract
(`deser (ser m) = some m`) is taken as a hypothesis where needed. -/

/-- `FSH_MAGIC = b"FSH\x01"` (protocol/mod.rs:62). -/
def FSH_MAGIC : List Nat := [70, 83, 72, 1]

/-- `u32::to_be_bytes` of a value already reduced mod `2 ^ 32`. -/
def u32beBytes (n : Nat) : List Nat :=
  [n / 2 ^ 24 % 256, n / 2 ^ 16 % 256, n / 2 ^ 8 % 256, n % 256]

/-- `u32::from_be_bytes` on a four-byte slice. -/
def u32fromBe (b : List Nat) : Nat :=
  b.getD 0 0 * 2 ^ 24 + b.getD 1 0 * 2 ^ 16 + b.getD 2 0 * 2 ^ 8 + b.getD 3 0

/-- `FshCodec::encode` (codec.rs:8-26): magic, then the payload length as
`u32` big-endian (the source casts `data.len() as u32`, hence the
`% 2 ^ 32`), then the payload. -/
def encode (ser : FshMessage → List Nat) (m : FshMessage) : List Nat :=
  FSH_MAGIC ++ u32beBytes ((ser m).length % 2 ^ 32) ++ ser m

/-- `FshCodec::decode` (codec.rs:28-55): check for at least a header,
check the magic, read the length, check the slice is long enough, then
deserialize the payload slice.  No size cap is checked here. -/
def decode (deser : List Nat → Option FshMessage) (data : List Nat) :
    Except FshError FshMessage :=
  if data.length < 4 + 4 then
    .error (.ProtocolError "Insufficient data")
  else if data.take 4 ≠ FSH_MAGIC then
    .error (.ProtocolError "Invalid magic bytes")
  else
    let len := u32fromBe ((data.drop 4).take 4)
    if data.length < 4 + 4 + len then
      .error (.ProtocolError "Incomplete message")
    else
      match deser ((data.drop 8).take len) with
      | some m => .ok m
      | none => .error (.ProtocolError "Deserialization failed")

/-- `FshCodec::read_message` (codec.rs:57-90) over a byte stream modelled
as the list of bytes the reader would deliver: `read_exact` the magic,
`read_exact` the length, reject lengths over `10 * 1024 * 1024`, then
`read_exact` and deserialize the payload.  Returns the message and the
unread remainder of the stream. -/
def read_message (deser : List Nat → Option FshMessage) (input : List Nat) :
    Except FshError (FshMessage × List Nat) :=
  if input.length < 4 then
    .error (.NetworkError "Failed to read magic")
  else if input.take 4 ≠ FSH_MAGIC then
    .error (.ProtocolError "Invalid magic bytes")
  else
    let rest := input.drop 4
    if rest.length < 4 then
      .error (.NetworkError "Failed to read length")
    else
      let len := u32fromBe (rest.take 4)
      let rest₂ := rest.drop 4
      if len > 10 * 1024 * 1024 then
        .error (.ProtocolError "Message too large")
      else if rest₂.length < len then
        .error (.NetworkError "Failed to read data")
      else
        match deser (rest₂.take len) with
        | some m => .ok (m, rest₂.drop len)
        | none => .error (.ProtocolError "Deserialization failed")

/-- `MessageBuffer::try_parse_messages` (codec.rs:128-162): scan the
stored bytes; on magic mismatch drop one byte and rescan; with a complete
frame present, `decode` it — on success remove the whole frame and keep
the message, on failure drop exactly the magic and rescan; stop when fewer
than a header's worth of bytes remain or the announced frame is
incomplete.  Returns the parsed messages in order and the remaining
buffer.  No size cap is checked here. -/
def try_parse_messages (deser : List Nat → Option FshMessage)
    (buf : List Nat) : List FshMessage × List Nat :=
  if _h8 : buf.length < 4 + 4 then
    ([], buf)
  else if _hm : buf.take 4 ≠ FSH_MAGIC then
    try_parse_messages deser (buf.drop 1)
  else
    let len := u32fromBe ((buf.drop 4).take 4)
    if _hc : buf.length < 4 + 4 + len then
      ([], buf)
    else
      match decode deser (buf.take (4 + 4 + len)) with
      | .ok m =>
        let rest := try_parse_messages deser (buf.drop (4 + 4 + len))
        (m :: rest.1, rest.2)
      | .error _ => try_parse_messages deser (buf.drop 4)
termination_by buf.length
decreasing_by
  · simp only [List.length_drop]
    omega
  · simp only [List.length_drop]
    omega
  · simp only [List.length_drop]
    omega

/-! ## `Session::handle_command` frame ordering (`src/server/session.rs:260-297`)

After `execute_command` returns its two channels, `handle_command` spawns
an output-forwarding task (session.rs:267-284) that drains the output
channel and writes one `CommandOutput` frame per item, while the handler
itself awaits the result channel and writes the `CommandComplete` frame
(session.rs:287-296).  Both writes go through the shared stream mutex but
nothing orders them: the model is the interleaving of the two tasks'
atomic lock-write-unlock steps over the channel contents.

The scenario state fixes a command whose subprocess has produced its
output lines and exited, so the output channel holds the lines and the
result channel holds the exit code; this is the channel state the racing
tasks then consume. -/

inductive Frame where
  | output (data : String)
  | complete (exit_code : Int)
deriving DecidableEq, Repr

/-- State of the two racing tasks of `handle_command`: the pending output
channel, the pending result channel, the frames written to the stream in
write order, and whether the completion write has happened. -/
structure HandlerSt where
  outQ : List String
  resQ : Option Int
  wire : List Frame
  completed : Bool
deriving DecidableEq, Repr

/-- One atomic step of either task: the forwarding task takes the next
output item and writes its `CommandOutput` frame (session.rs:268-283), or
the handler receives the result and writes the `CommandComplete` frame
(session.rs:287-296). -/
inductive HandlerStep : HandlerSt → HandlerSt → Prop where
  | forward (s : HandlerSt) (d : String) (rest : List String)
      (h : s.outQ = d :: rest) :
      HandlerStep s ⟨rest, s.resQ, s.wire ++ [.output d], s.completed⟩
  | complete (s : HandlerSt) (r : Int)
      (h : s.resQ = some r) (hc : s.completed = false) :
      HandlerStep s ⟨s.outQ, none, s.wire ++ [.complete r], true⟩

/-- Channel state after the subprocess produced lines `os` and exited with
code `r`, before either racing task has run. -/
def handlerInit (os : List String) (r : Int) : HandlerSt :=
  ⟨os, some r, [], false⟩

/-- The handler states reachable under some interleaving. -/
def HandlerReachable (os : List String) (r : Int) (s : HandlerSt) : Prop :=
  Relation.ReflTransGen HandlerStep (handlerInit os r) s

/-- The `CommandOutput` payloads of a frame sequence, in order. -/
def outputsOf (w : List Frame) : List String :=
  w.filterMap (fun f => match f with
    | .output d => some d
    | .complete _ => none)

/-! ## Helper lemmas -/

/-- Any `Ok` of `validate_path` passed the `starts_with` guard. -/
theorem validate_path_ok_startsWith (canon : FsPath → Option FsPath)
    (root p q : FsPath) (h : validate_path canon root p = .ok q) :
    q.startsWith root = true := by
  unfold validate_path at h
  dsimp only at h
  cases hc : canon (if p.absolute then p else root.join p) with
  | none =>
    rw [hc] at h
    simp at h
  | some c =>
    rw [hc] at h
    dsimp only at h
    by_cases hs : c.startsWith root = true
    · rw [if_pos hs] at h
      injection h with h₂
      subst h₂
      exact hs
    · rw [if_neg hs] at h
      simp at h

/-- A component list is a strict extension of its own `dropLast`, so it is
never a prefix of it. -/
theorem not_isPrefixOf_dropLast (l : List String) (h : l ≠ []) :
    l.isPrefixOf l.dropLast = false := by
  by_contra hcon
  have hpre : l <+: l.dropLast := by
    have := Bool.of_not_eq_false hcon
    exact (by simpa using List.isPrefixOf_iff_prefix.mp this)
  have hlen := hpre.length_le
  have : l.length ≠ 0 := by simpa using h
  simp [List.length_dropLast] at hlen
  omega

/-- `startsWith` is reflexive. -/
theorem startsWith_self (p : FsPath) : p.startsWith p = true := by
  simp [FsPath.startsWith, List.isPrefixOf_iff_prefix]

/-! ## C1 — confinement of `validate_path` -/

/-- C1: for every `working_directory` reachable by any sequence of shell
operations and every input path, if `validate_path` returns `Ok q` then
`q` has the validator's canonicalized root as a path prefix; the resolved
path never escapes the root. -/
theorem C1_validate_path_confined (canon : FsPath → Option FsPath)
    (isDir : FsPath → Bool) (root croot : FsPath) (s : ShellSt)
    (hreach : ShellReachable canon isDir root croot s)
    (p q : FsPath) (h : validate_path canon croot p = .ok q) :
    q.startsWith croot = true :=
  validate_path_ok_startsWith canon croot p q h

/-- Witness for C1 at a concrete reachable state and input: the identity
canonicalizer on root `/r`, input `/r/sub` when it canonicalizes under the
root. -/
theorem C1_validate_path_confined_witness :
    validate_path (fun x => some x) ⟨true, ["r"]⟩ ⟨true, ["r", "sub"]⟩ =
      .ok ⟨true, ["r", "sub"]⟩
    ∧ FsPath.startsWith ⟨true, ["r", "sub"]⟩ ⟨true, ["r"]⟩ = true := by
  refine ⟨rfl, ?_⟩
  exact C1_validate_path_confined (fun x => some x) (fun _ => true)
    ⟨true, ["r"]⟩ ⟨true, ["r"]⟩ ⟨⟨true, ["r"]⟩⟩
    Relation.ReflTransGen.refl ⟨true, ["r", "sub"]⟩ ⟨true, ["r", "sub"]⟩
    rfl

/-! ## C2 — the command-policy decision procedure -/

/-- C2: `FolderConfig::is_command_allowed` implements exactly the
four-step decision procedure of the specification: blocked-substring
denial first, then system-aware-substring allowance, then the `"*"` /
empty-list allowance, then prefix or `"/A"` or `"\A"` membership in
`allowed_commands`. -/
theorem C2_is_command_allowed_eq_spec (f : FolderConfig) (command : Str) :
    is_command_allowed f command = command_policy_spec f command := by
  rcases f with ⟨al, bl, sys⟩
  cases sys <;>
    simp only [is_command_allowed, command_policy_spec, Option.getD] <;>
    split_ifs <;>
    simp_all

/-! ## C7 — sandboxed child environment -/

/-- C7 (code bug witness): for a non-system-aware command the child
environment is *not* assembled from empty — the branch never calls
`env_clear`, so every server-process variable (here `HOME`) is inherited,
even though it is not among the configured variables; the implicit
`FSH_ROOT`/`FSH_MODE` entries are present as claimed. -/
theorem C7_sandboxed_env_inherits_server :
    envLookup
      (buildChildEnv [("HOME", "/root"), ("PATH", "/usr/bin")]
        (sandboxEnvVars "/srv/demo" []) "/srv/demo" false) "HOME"
      = some "/root"
    ∧ envLookup (sandboxEnvVars "/srv/demo" []) "HOME" = none
    ∧ envLookup
        (buildChildEnv [("HOME", "/root"), ("PATH", "/usr/bin")]
          (sandboxEnvVars "/srv/demo" []) "/srv/demo" false) "FSH_ROOT"
        = some "/srv/demo"
    ∧ envLookup
        (buildChildEnv [("HOME", "/root"), ("PATH", "/usr/bin")]
          (sandboxEnvVars "/srv/demo" []) "/srv/demo" false) "FSH_MODE"
        = some "restricted" := by
  refine ⟨?_, ?_, ?_, ?_⟩ <;> rfl

/-! ## C10 — `current_process` is never populated -/

/-- `applyShellOp` preserves `current_process = none`. -/
theorem applyShellOp_current_process_none
    (killChild : Child → Except FshError Unit) (s : ShellProc)
    (op : ShellOp) (h : s.current_process = none) :
    (applyShellOp killChild s op).current_process = none := by
  cases op <;> simp [applyShellOp, kill_current_process, h]

/-- Folding any operation sequence preserves `current_process = none`. -/
theorem foldl_current_process_none
    (killChild : Child → Except FshError Unit) (ops : List ShellOp) :
    ∀ s : ShellProc, s.current_process = none →
      (ops.foldl (applyShellOp killChild) s).current_process = none := by
  induction ops with
  | nil => intro s h; simpa using h
  | cons op rest ih =>
    intro s h
    simpa using ih _ (applyShellOp_current_process_none killChild s op h)

/-- C10: after construction, `current_process` remains `None` across every
sequence of shell operations — `execute_command` moves the spawned child
into its wait task without storing it — so `kill_current_process` always
takes the `None` branch, kills nothing, leaves the state unchanged, and
returns `Ok(())`. -/
theorem C10_current_process_none_kill_noop
    (killChild : Child → Except FshError Unit) (root : FsPath)
    (ops : List ShellOp) :
    (ops.foldl (applyShellOp killChild) (initShellProc root)).current_process
      = none
    ∧ kill_current_process killChild
        (ops.foldl (applyShellOp killChild) (initShellProc root))
      = (.ok (), ops.foldl (applyShellOp killChild) (initShellProc root)) := by
  have hnone := foldl_current_process_none killChild ops (initShellProc root)
    rfl
  exact ⟨hnone, by simp [kill_current_process, hnone]⟩

/-! ## Codec lemmas -/

/-- Reading back the four big-endian bytes of a `u32` value. -/
theorem u32fromBe_u32beBytes (n : Nat) (h : n < 2 ^ 32) :
    u32fromBe (u32beBytes n) = n := by
  unfold u32fromBe u32beBytes
  simp only [List.getD, List.get?_cons_zero, List.get?_cons_succ,
    Option.getD_some]
  omega

/-- An encoded frame is the 8-byte header followed by the payload. -/
theorem encode_length (ser : FshMessage → List Nat) (m : FshMessage) :
    (encode ser m).length = 8 + (ser m).length := by
  simp [encode, FSH_MAGIC, u32beBytes]
  omega

/-- The first four bytes of a frame are the magic. -/
theorem encode_take_four (ser : FshMessage → List Nat) (m : FshMessage) :
    (encode ser m).take 4 = FSH_MAGIC := by
  rw [encode, List.append_assoc]
  exact List.take_left' rfl

/-- Bytes 4..8 of a frame are the big-endian payload length. -/
theorem encode_len_field (ser : FshMessage → List Nat) (m : FshMessage) :
    ((encode ser m).drop 4).take 4 = u32beBytes ((ser m).length % 2 ^ 32) := by
  rw [encode, List.append_assoc]
  rw [List.drop_left' (by rfl)]
  exact List.take_left' rfl

/-- Bytes from 8 on are the payload. -/
theorem encode_drop_eight (ser : FshMessage → List Nat) (m : FshMessage) :
    (encode ser m).drop 8 = ser m := by
  rw [encode, List.append_assoc, show (8 : Nat) = 4 + 4 from rfl,
    ← List.drop_drop]
  rw [List.drop_left' (show FSH_MAGIC.length = 4 from rfl)]
  exact List.drop_left' rfl

/-- `decode` inverts `encode` whenever the serializer round-trips the
message and the payload length is `u32`-representable. -/
theorem decode_encode_aux (ser : FshMessage → List Nat)
    (deser : List Nat → Option FshMessage) (m : FshMessage)
    (hrt : deser (ser m) = some m) (hlen : (ser m).length < 2 ^ 32) :
    decode deser (encode ser m) = .ok m := by
  have hmod : (ser m).length % 2 ^ 32 = (ser m).length :=
    Nat.mod_eq_of_lt hlen
  have hfrom : u32fromBe (((encode ser m).drop 4).take 4) = (ser m).length := by
    rw [encode_len_field, hmod, u32fromBe_u32beBytes _ hlen]
  unfold decode
  rw [if_neg (by rw [encode_length]; omega),
    if_neg (by rw [encode_take_four]; simp)]
  dsimp only
  rw [hfrom, if_neg (by rw [encode_length]; omega), encode_drop_eight,
    List.take_length, hrt]

/-! ## C4 — round-trip framing -/

/-- C4: for every protocol message `m` (whose `bincode` payload
round-trips, as `bincode` guarantees, and fits a `u32` length field),
decoding the bytes produced by encoding `m` yields exactly `m`. -/
theorem C4_decode_encode_roundtrip (ser : FshMessage → List Nat)
    (deser : List Nat → Option FshMessage) (m : FshMessage)
    (hrt : deser (ser m) = some m) (hlen : (ser m).length < 2 ^ 32) :
    decode deser (encode ser m) = .ok m :=
  decode_encode_aux ser deser m hrt hlen

/-- Witness for C4 at a concrete serializer and message. -/
theorem C4_decode_encode_roundtrip_witness :
    (fun _ : List Nat => some FshMessage.Ping) [(0 : Nat)]
        = some FshMessage.Ping
    ∧ decode (fun _ => some FshMessage.Ping)
        (encode (fun _ => [0]) FshMessage.Ping) = .ok FshMessage.Ping := by
  refine ⟨rfl, ?_⟩
  exact C4_decode_encode_roundtrip (fun _ => [0])
    (fun _ => some FshMessage.Ping) FshMessage.Ping rfl (by norm_num)

/-- The streaming decoder leaves an empty buffer alone. -/
theorem try_parse_nil (deser : List Nat → Option FshMessage) :
    try_parse_messages deser [] = ([], []) := by
  rw [try_parse_messages]
  simp

/-- The streaming decoder consumes one well-formed frame entirely and
yields its message. -/
theorem try_parse_encode (ser : FshMessage → List Nat)
    (deser : List Nat → Option FshMessage) (m : FshMessage)
    (hrt : deser (ser m) = some m) (hlen : (ser m).length < 2 ^ 32) :
    try_parse_messages deser (encode ser m) = ([m], []) := by
  have hfrom : u32fromBe (((encode ser m).drop 4).take 4) = (ser m).length := by
    rw [encode_len_field, Nat.mod_eq_of_lt hlen, u32fromBe_u32beBytes _ hlen]
  have htake : (encode ser m).take (4 + 4 + (ser m).length) = encode ser m :=
    List.take_of_length_le (by rw [encode_length]; try omega)
  have hdrop : (encode ser m).drop (4 + 4 + (ser m).length) = [] :=
    List.drop_eq_nil_of_le (by rw [encode_length]; try omega)
  rw [try_parse_messages]
  rw [dif_neg (by rw [encode_length]; omega)]
  rw [dif_neg (by simp [encode_take_four])]
  dsimp only
  rw [hfrom]
  rw [dif_neg (by rw [encode_length]; omega)]
  rw [htake, decode_encode_aux ser deser m hrt hlen]
  dsimp only
  rw [hdrop, try_parse_nil]

/-! ## C5 — the 10 MiB frame cap -/

/-- C5 (amended): the oversize check lives in `read_message` only: a
stream whose header announces a length over `10 * 1024 * 1024` fails there
with `ProtocolError "Message too large"`, whatever follows the header. -/
theorem C5_read_message_oversize (deser : List Nat → Option FshMessage)
    (len : Nat) (rest : List Nat) (hcap : 10 * 1024 * 1024 < len)
    (h32 : len < 2 ^ 32) :
    read_message deser (FSH_MAGIC ++ u32beBytes len ++ rest)
      = .error (.ProtocolError "Message too large") := by
  have htake4 : (FSH_MAGIC ++ (u32beBytes len ++ rest)).take 4 = FSH_MAGIC :=
    List.take_left' rfl
  have hdrop4 : (FSH_MAGIC ++ (u32beBytes len ++ rest)).drop 4
      = u32beBytes len ++ rest :=
    List.drop_left' rfl
  have htakelen : (u32beBytes len ++ rest).take 4 = u32beBytes len :=
    List.take_left' (by simp [u32beBytes])
  have hlen8 : (FSH_MAGIC ++ (u32beBytes len ++ rest)).length
      = 8 + rest.length := by
    simp [FSH_MAGIC, u32beBytes]
    omega
  have hlen4 : (u32beBytes len ++ rest).length = 4 + rest.length := by
    simp [u32beBytes]
    omega
  unfold read_message
  rw [List.append_assoc]
  rw [if_neg (by rw [hlen8]; omega)]
  rw [if_neg (by rw [htake4]; simp)]
  dsimp only
  rw [hdrop4, htakelen]
  rw [if_neg (by rw [hlen4]; omega)]
  rw [u32fromBe_u32beBytes _ h32]
  rw [if_pos hcap]

/-- Witness for C5 (amended) at the smallest oversize length. -/
theorem C5_read_message_oversize_witness :
    read_message (fun _ => none)
      (FSH_MAGIC ++ u32beBytes (10 * 1024 * 1024 + 1) ++ [])
      = .error (.ProtocolError "Message too large") :=
  C5_read_message_oversize (fun _ => none) (10 * 1024 * 1024 + 1) []
    (by norm_num) (by norm_num)

/-- C5 (counterexample): the claim extends the cap to every reader of
frames including the streaming buffered decoder, but
`MessageBuffer::try_parse_messages` checks no cap: a frame whose LEN field
is `10 MiB + 1` is buffered, fully parsed, and its message delivered
rather than rejected with a protocol error. -/
theorem C5_try_parse_messages_accepts_oversize :
    try_parse_messages (fun _ => some FshMessage.Pong)
      (encode (fun _ => List.replicate (10 * 1024 * 1024 + 1) 0)
        FshMessage.Pong)
      = ([FshMessage.Pong], []) :=
  try_parse_encode (fun _ => List.replicate (10 * 1024 * 1024 + 1) 0)
    (fun _ => some FshMessage.Pong) FshMessage.Pong rfl
    (by rw [List.length_replicate]; norm_num)

/-- A buffer whose head is not the first magic byte cannot start with the
magic. -/
theorem cons_take_four_ne_magic (b : Nat) (l : List Nat) (hb : b ≠ 70) :
    (b :: l).take 4 ≠ FSH_MAGIC := by
  intro hcon
  rw [show (b :: l).take 4 = b :: l.take 3 from rfl, FSH_MAGIC] at hcon
  exact hb (List.cons.inj hcon).1

/-- Prepending junk that never contains the first magic byte: the scanner
discards the junk byte by byte and then parses the frame. -/
theorem try_parse_junk (ser : FshMessage → List Nat)
    (deser : List Nat → Option FshMessage) (m : FshMessage)
    (hrt : deser (ser m) = some m) (hlen : (ser m).length < 2 ^ 32) :
    ∀ junk : List Nat, (∀ b ∈ junk, b ≠ 70) →
      try_parse_messages deser (junk ++ encode ser m) = ([m], []) := by
  intro junk
  induction junk with
  | nil =>
    intro _
    simpa using try_parse_encode ser deser m hrt hlen
  | cons b t ih =>
    intro hjunk
    have hb : b ≠ 70 := hjunk b (by simp)
    have hcons : (b :: t) ++ encode ser m = b :: (t ++ encode ser m) := rfl
    rw [hcons]
    conv_lhs => rw [try_parse_messages]
    rw [dif_neg (by
      simp only [List.length_cons, List.length_append, encode_length]
      omega)]
    rw [dif_pos (cons_take_four_ne_magic b (t ++ encode ser m) hb)]
    rw [show (b :: (t ++ encode ser m)).drop 1 = t ++ encode ser m from rfl]
    exact ih (fun x hx => hjunk x (List.mem_cons_of_mem b hx))

/-! ## C6 — streaming resync -/

/-- C6 (amended): the streaming decoder discards exactly one byte on a
magic mismatch and exactly the magic on a failed payload
deserialization; and junk that contains no occurrence of the leading
magic byte `0x46`, of length at most 1 MiB, prepended to a valid frame,
is fully discarded: the decoder yields that frame's message and nothing
before it.  (For arbitrary junk the eventual-delivery part is false —
see the counterexample.) -/
theorem C6_try_parse_resync :
    (∀ (deser : List Nat → Option FshMessage) (buf : List Nat),
        ¬ buf.length < 4 + 4 → buf.take 4 ≠ FSH_MAGIC →
        try_parse_messages deser buf = try_parse_messages deser (buf.drop 1))
    ∧ (∀ (deser : List Nat → Option FshMessage) (buf : List Nat)
        (e : FshError),
        ¬ buf.length < 4 + 4 → buf.take 4 = FSH_MAGIC →
        ¬ buf.length < 4 + 4 + u32fromBe ((buf.drop 4).take 4) →
        decode deser (buf.take (4 + 4 + u32fromBe ((buf.drop 4).take 4)))
          = .error e →
        try_parse_messages deser buf = try_parse_messages deser (buf.drop 4))
    ∧ (∀ (ser : FshMessage → List Nat) (deser : List Nat → Option FshMessage)
        (m : FshMessage) (junk : List Nat),
        deser (ser m) = some m → (ser m).length < 2 ^ 32 →
        junk.length ≤ 2 ^ 20 → (∀ b ∈ junk, b ≠ 70) →
        try_parse_messages deser (junk ++ encode ser m) = ([m], [])) := by
  refine ⟨?_, ?_, ?_⟩
  · intro deser buf h8 hm
    conv_lhs => rw [try_parse_messages]
    rw [dif_neg h8, dif_pos hm]
  · intro deser buf e h8 hm hc hdec
    conv_lhs => rw [try_parse_messages]
    rw [dif_neg h8, dif_neg (by simp [hm])]
    dsimp only
    rw [dif_neg hc, hdec]
  · intro ser deser m junk hrt hlen _ hjunk
    exact try_parse_junk ser deser m hrt hlen junk hjunk

/-- Witness for C6 (amended), applying the junk-resync conjunct at a
concrete junk and frame. -/
theorem C6_try_parse_resync_witness :
    ((∀ b ∈ [(1 : Nat), 2, 3], b ≠ 70)
      ∧ try_parse_messages (fun _ => some FshMessage.Ping)
          ([1, 2, 3] ++ encode (fun _ => [9]) FshMessage.Ping)
          = ([FshMessage.Ping], [])) := by
  refine ⟨by decide, ?_⟩
  exact C6_try_parse_resync.2.2 (fun _ => [9]) (fun _ => some FshMessage.Ping)
    FshMessage.Ping [1, 2, 3] rfl (by norm_num) (by norm_num) (by decide)

/-- C6 (counterexample): after junk of 8 bytes (≤ 1 MiB) that happens to
contain the magic followed by a huge length field, the streaming decoder
does not resync: it treats the junk as a frame header, waits for
4GiB − 1 payload bytes, and never yields the valid frame that follows. -/
theorem C6_try_parse_stalls_cex :
    try_parse_messages (fun _ => some FshMessage.Ping)
      ((FSH_MAGIC ++ [255, 255, 255, 255]) ++ encode (fun _ => [7]) FshMessage.Ping)
      = ([], (FSH_MAGIC ++ [255, 255, 255, 255])
          ++ encode (fun _ => [7]) FshMessage.Ping) := by
  have hbuf : (FSH_MAGIC ++ [255, 255, 255, 255])
      ++ encode (fun _ => [7]) FshMessage.Ping
      = [70, 83, 72, 1, 255, 255, 255, 255, 70, 83, 72, 1, 0, 0, 0, 1, 7] := by
    rfl
  rw [hbuf]
  conv_lhs => rw [try_parse_messages]
  rw [dif_neg (by decide)]
  rw [dif_neg (by decide)]
  dsimp only
  rw [dif_pos (by decide)]

/-! ## C8 — behaviour of `validate_path` on canonicalization failure -/

/-- C8 (counterexample): a write/create path whose canonicalization fails
but whose parent canonicalizes to a directory under root.  The claim says
`validate_path` falls back to canonicalizing the parent and reattaching
the leaf, returning `Ok`; the code has no such fallback and returns
`InvalidPath` immediately. -/
theorem C8_no_parent_fallback_cex :
    validate_path
      (fun x => if x = (⟨true, ["r"]⟩ : FsPath) then some (⟨true, ["r"]⟩ : FsPath) else none)
      ⟨true, ["r"]⟩ ⟨true, ["r", "newfile.txt"]⟩
      = .error (.InvalidPath "Cannot resolve path")
    ∧ (fun x => if x = (⟨true, ["r"]⟩ : FsPath) then some (⟨true, ["r"]⟩ : FsPath) else none)
        (⟨true, ["r", "newfile.txt"]⟩ : FsPath) = none
    ∧ FsPath.parent ⟨true, ["r", "newfile.txt"]⟩ = some ⟨true, ["r"]⟩
    ∧ (fun x => if x = (⟨true, ["r"]⟩ : FsPath) then some (⟨true, ["r"]⟩ : FsPath) else none)
        (⟨true, ["r"]⟩ : FsPath) = some ⟨true, ["r"]⟩
    ∧ FsPath.startsWith ⟨true, ["r"]⟩ ⟨true, ["r"]⟩ = true := by
  refine ⟨rfl, ?_, rfl, ?_, rfl⟩
  · simp
  · simp

/-- C8 (amended): when canonicalization of the (joined) input fails,
`validate_path` returns `InvalidPath` unconditionally — there is no
parent-and-leaf fallback for write/create paths; and when the canonical
result does not have the root as a prefix it returns `PermissionDenied`. -/
theorem C8_validate_path_failure_modes :
    (∀ (canon : FsPath → Option FsPath) (root p : FsPath),
        canon (if p.absolute then p else root.join p) = none →
        validate_path canon root p = .error (.InvalidPath "Cannot resolve path"))
    ∧ (∀ (canon : FsPath → Option FsPath) (root p c : FsPath),
        canon (if p.absolute then p else root.join p) = some c →
        c.startsWith root = false →
        validate_path canon root p
          = .error (.PermissionDenied "Path is outside the allowed directory")) := by
  constructor
  · intro canon root p h
    unfold validate_path
    dsimp only
    rw [h]
  · intro canon root p c h hs
    unfold validate_path
    dsimp only
    rw [h]
    dsimp only
    rw [if_neg (by simp [hs])]

/-- Witness for C8 (amended) at a concrete failing canonicalization. -/
theorem C8_validate_path_failure_modes_witness :
    validate_path (fun _ => none) ⟨true, ["r"]⟩ ⟨false, ["x"]⟩
      = .error (.InvalidPath "Cannot resolve path") :=
  C8_validate_path_failure_modes.1 (fun _ => none) ⟨true, ["r"]⟩
    ⟨false, ["x"]⟩ rfl

/-- A successful `cd` leaves the working directory under the configured
root, when the validator root coincides with it. -/
theorem cd_builtin_wd_confined (canon : FsPath → Option FsPath)
    (isDir : FsPath → Bool) (root : FsPath) (s s₂ : ShellSt)
    (args : List CmdArg) (res : CommandResult)
    (hwd : s.working_directory.startsWith root = true)
    (h : cd_builtin canon isDir root root s args = .ok (s₂, res)) :
    s₂.working_directory.startsWith root = true := by
  have finish_case : ∀ (args₂ : List CmdArg) (target : FsPath),
      target.startsWith root = true →
      cdFinish isDir s args₂ target = .ok (s₂, res) →
      s₂.working_directory.startsWith root = true := by
    intro args₂ target htgt hf
    unfold cdFinish at hf
    by_cases hd : isDir target = true
    · rw [if_pos hd] at hf
      injection hf with hf
      rw [(Prod.mk.injEq _ _ _ _).mp hf |>.1.symm]
      exact htgt
    · rw [if_neg hd] at hf
      cases args₂ with
      | nil => exact absurd hf (by simp)
      | cons a rest =>
        injection hf with hf
        rw [(Prod.mk.injEq _ _ _ _).mp hf |>.1.symm]
        exact hwd
  unfold cd_builtin at h
  cases args with
  | nil => exact finish_case [] root (startsWith_self root) h
  | cons a rest =>
    dsimp only at h
    by_cases hraw : a.raw = ".."
    · rw [if_pos hraw] at h
      cases hp : s.working_directory.parent with
      | none =>
        rw [hp] at h
        exact finish_case (a :: rest) root (startsWith_self root) h
      | some par =>
        rw [hp] at h
        dsimp only at h
        by_cases hsw : par.startsWith root = true
        · rw [if_pos hsw] at h
          exact finish_case (a :: rest) par hsw h
        · rw [if_neg hsw] at h
          injection h with h
          rw [(Prod.mk.injEq _ _ _ _).mp h |>.1.symm]
          exact hwd
    · rw [if_neg hraw] at h
      cases h1 : (if a.parsed.absolute then validate_path canon root a.parsed
          else .ok (s.working_directory.join a.parsed)) with
      | error e =>
        rw [h1] at h
        exact absurd h (by simp)
      | ok ap =>
        rw [h1] at h
        dsimp only at h
        cases h2 : validate_path canon root ap with
        | error e =>
          rw [h2] at h
          exact absurd h (by simp)
        | ok target =>
          rw [h2] at h
          dsimp only at h
          exact finish_case (a :: rest) target
            (validate_path_ok_startsWith canon root ap target h2) h

/-! ## C3 — the `cd` builtin -/

/-- C3 (counterexample): with the sandbox rooted at the filesystem root
`/`, the working directory `/` has no parent, so `cd ..` does not take
the denial branch: it resets to the root with exit code 0 and no message,
while the claim requires exit code 1 with a denial message. -/
theorem C3_cd_dotdot_at_fs_root_cex :
    cd_builtin (fun p => some p) (fun _ => true) ⟨true, []⟩ ⟨true, []⟩
      ⟨⟨true, []⟩⟩ [⟨"..", ⟨false, [".."]⟩⟩]
      = .ok (⟨⟨true, []⟩⟩, ⟨0, "", ""⟩) := by
  rfl

/-- C3 (amended): the `cd` builtin behaves as claimed provided the
configured root is not the bare filesystem root: (1) no argument resets
to the root (a directory); (2) `..` moves to the parent when the parent
is still under root and is a directory; (3) `..` with a parent outside
root is a denied no-op with exit 1; (4) in particular `cd ..` at the root
itself is that denied no-op whenever the root has at least one component;
(5) any other target is path-validated — hence confined under the
canonical root — and required to be a directory, updating the working
directory with exit 0 and empty output; (6) every working directory
reachable by `cd` steps stays under the root (validator root equal to the
configured root). -/
theorem C3_cd_builtin_semantics :
    (∀ (canon : FsPath → Option FsPath) (isDir : FsPath → Bool)
        (root croot : FsPath) (s : ShellSt), isDir root = true →
        cd_builtin canon isDir root croot s [] = .ok (⟨root⟩, ⟨0, "", ""⟩))
    ∧ (∀ (canon : FsPath → Option FsPath) (isDir : FsPath → Bool)
        (root croot : FsPath) (s : ShellSt) (a : CmdArg)
        (rest : List CmdArg) (par : FsPath),
        a.raw = ".." → s.working_directory.parent = some par →
        par.startsWith root = true → isDir par = true →
        cd_builtin canon isDir root croot s (a :: rest)
          = .ok (⟨par⟩, ⟨0, "", ""⟩))
    ∧ (∀ (canon : FsPath → Option FsPath) (isDir : FsPath → Bool)
        (root croot : FsPath) (s : ShellSt) (a : CmdArg)
        (rest : List CmdArg) (par : FsPath),
        a.raw = ".." → s.working_directory.parent = some par →
        par.startsWith root = false →
        cd_builtin canon isDir root croot s (a :: rest)
          = .ok (s, ⟨1, "", "Access denied: Cannot navigate above project folder"⟩))
    ∧ (∀ (canon : FsPath → Option FsPath) (isDir : FsPath → Bool)
        (root croot : FsPath) (s : ShellSt) (a : CmdArg)
        (rest : List CmdArg),
        a.raw = ".." → root.components ≠ [] → s.working_directory = root →
        cd_builtin canon isDir root croot s (a :: rest)
          = .ok (s, ⟨1, "", "Access denied: Cannot navigate above project folder"⟩))
    ∧ (∀ (canon : FsPath → Option FsPath) (isDir : FsPath → Bool)
        (root croot : FsPath) (s : ShellSt) (a : CmdArg)
        (rest : List CmdArg) (ap target : FsPath),
        a.raw ≠ ".." →
        (if a.parsed.absolute then validate_path canon croot a.parsed
          else .ok (s.working_directory.join a.parsed)) = .ok ap →
        validate_path canon croot ap = .ok target →
        isDir target = true →
        cd_builtin canon isDir root croot s (a :: rest)
            = .ok (⟨target⟩, ⟨0, "", ""⟩)
          ∧ target.startsWith croot = true)
    ∧ (∀ (canon : FsPath → Option FsPath) (isDir : FsPath → Bool)
        (root : FsPath) (s : ShellSt),
        ShellReachable canon isDir root root s →
        s.working_directory.startsWith root = true) := by
  refine ⟨?_, ?_, ?_, ?_, ?_, ?_⟩
  · intro canon isDir root croot s hdir
    simp [cd_builtin, cdFinish, hdir]
  · intro canon isDir root croot s a rest par hraw hpar hsw hdir
    simp [cd_builtin, hraw, hpar, hsw, cdFinish, hdir]
  · intro canon isDir root croot s a rest par hraw hpar hsw
    simp [cd_builtin, hraw, hpar, hsw]
  · intro canon isDir root croot s a rest hraw hne hwd
    rcases root with ⟨ab, comps⟩
    cases comps with
    | nil => exact absurd rfl hne
    | cons x xs =>
      have hpar : s.working_directory.parent
          = some ⟨ab, (x :: xs).dropLast⟩ := by
        rw [hwd]
        rfl
      have hsw : FsPath.startsWith ⟨ab, (x :: xs).dropLast⟩ ⟨ab, x :: xs⟩
          = false := by
        unfold FsPath.startsWith
        simp [not_isPrefixOf_dropLast (x :: xs) (by simp)]
      simp [cd_builtin, hraw, hpar, hsw]
  · intro canon isDir root croot s a rest ap target hraw h1 h2 hdir
    refine ⟨?_, validate_path_ok_startsWith canon croot ap target h2⟩
    simp [cd_builtin, hraw, h1, h2, cdFinish, hdir]
  · intro canon isDir root s h
    unfold ShellReachable at h
    induction h with
    | refl => exact startsWith_self root
    | tail hab step ih =>
      cases step with
      | cd s₁ args res hcd =>
        exact cd_builtin_wd_confined canon isDir root _ _ _ _ ih hcd
      | untouched => exact ih

/-- Witness for C3 (amended), applying the denied-`..` conjunct at a
concrete state whose parent lies outside the root. -/
theorem C3_cd_builtin_semantics_witness :
    FsPath.parent ⟨true, ["r"]⟩ = some ⟨true, []⟩
    ∧ FsPath.startsWith ⟨true, []⟩ ⟨true, ["r"]⟩ = false
    ∧ cd_builtin (fun p => some p) (fun _ => true) ⟨true, ["r"]⟩
        ⟨true, ["r"]⟩ ⟨⟨true, ["r"]⟩⟩ [⟨"..", ⟨false, [".."]⟩⟩]
        = .ok (⟨⟨true, ["r"]⟩⟩,
            ⟨1, "", "Access denied: Cannot navigate above project folder"⟩) := by
  refine ⟨rfl, by simp [FsPath.startsWith], ?_⟩
  exact C3_cd_builtin_semantics.2.2.1 (fun p => some p) (fun _ => true)
    ⟨true, ["r"]⟩ ⟨true, ["r"]⟩ ⟨⟨true, ["r"]⟩⟩ ⟨"..", ⟨false, [".."]⟩⟩ []
    ⟨true, []⟩ rfl rfl (by simp [FsPath.startsWith])

/-- `outputsOf` distributes over frame-sequence concatenation. -/
theorem outputsOf_append (a b : List Frame) :
    outputsOf (a ++ b) = outputsOf a ++ outputsOf b := by
  simp [outputsOf]

/-! ## C9 — frame ordering of `handle_command` -/

/-- C9 (counterexample): an interleaving reachable from a finished
subprocess with one pending output line, in which the handler writes the
`CommandComplete` frame first and the output-forwarding task writes the
`CommandOutput` frame after it — so `CommandComplete` is not the last
frame of the command. -/
theorem C9_output_after_complete_cex :
    HandlerReachable ["hello\n"] 0
      ⟨[], none, [.complete 0, .output "hello\n"], true⟩ := by
  unfold HandlerReachable
  have h1 : HandlerStep (handlerInit ["hello\n"] 0)
      ⟨["hello\n"], none, [.complete 0], true⟩ := by
    have h := HandlerStep.complete (handlerInit ["hello\n"] 0) 0 rfl rfl
    simpa [handlerInit] using h
  have h2 : HandlerStep
      (⟨["hello\n"], none, [.complete 0], true⟩ : HandlerSt)
      ⟨[], none, [.complete 0, .output "hello\n"], true⟩ := by
    have h := HandlerStep.forward
      (⟨["hello\n"], none, [.complete 0], true⟩ : HandlerSt) "hello\n" [] rfl
    simpa using h
  exact Relation.ReflTransGen.head h1 (Relation.ReflTransGen.single h2)

/-- C9 (amended): under every interleaving, the `CommandOutput` frames
are written in channel order, and the `CommandComplete` frame is written
at most once and only after the command's result was received (hence
after the subprocess exited); but no ordering between `CommandOutput` and
`CommandComplete` writes is enforced — a `CommandOutput` may be written
after `CommandComplete` (see the counterexample). -/
theorem C9_handler_frame_ordering (os : List String) (r : Int)
    (s : HandlerSt) (h : HandlerReachable os r s) :
    outputsOf s.wire ++ s.outQ = os
    ∧ (s.completed = false → Frame.complete r ∉ s.wire ∧ s.resQ = some r)
    ∧ (s.completed = true → s.resQ = none) := by
  unfold HandlerReachable at h
  induction h with
  | refl => simp [handlerInit, outputsOf]
  | @tail b c hab step ih =>
    rcases ih with ⟨ih1, ih2, ih3⟩
    cases step with
    | forward d rest hq =>
      refine ⟨?_, ?_, ?_⟩
      · dsimp only
        rw [outputsOf_append, show outputsOf [Frame.output d] = [d] from rfl,
          List.append_assoc]
        rw [hq] at ih1
        exact ih1
      · intro hc
        obtain ⟨hnm, hres⟩ := ih2 hc
        refine ⟨?_, hres⟩
        simp only [List.mem_append, List.mem_singleton]
        rintro (hin | hin)
        · exact hnm hin
        · exact absurd hin (by simp)
      · intro hc
        exact ih3 hc
    | complete r₂ hq hc =>
      obtain ⟨hnm, hres⟩ := ih2 hc
      have hr : r₂ = r := by
        rw [hq] at hres
        exact Option.some.inj hres
      refine ⟨?_, ?_, ?_⟩
      · dsimp only
        rw [outputsOf_append, show outputsOf [Frame.complete r₂] = [] from rfl,
          List.append_nil]
        exact ih1
      · intro hcf
        exact absurd hcf (by simp)
      · intro _
        rfl

/-- Witness for C9 (amended) at the initial state of a concrete finished
command. -/
theorem C9_handler_frame_ordering_witness :
    outputsOf (handlerInit ["a"] 0).wire ++ (handlerInit ["a"] 0).outQ
      = ["a"] :=
  (C9_handler_frame_ordering ["a"] 0 (handlerInit ["a"] 0)
    (by unfold HandlerReachable; exact Relation.ReflTransGen.refl)).1

end FSH
